import Mathlib

/-!
Shallow embedding of `heredity.py`: a Bayesian-network heredity posterior
computed by exhaustive enumeration.  Probabilities are modelled as rationals.
Python dicts of people become association lists keyed by the person's name;
the sets `one_gene`, `two_genes`, `have_trait` become lists of names with
membership via `List.contains`.
-/

namespace Heredity

/-- A row of the pedigree: `load_data` produces, for each person, the name,
optional mother/father names and an optional observed trait. -/
structure Person where
  name : String
  mother : Option String
  father : Option String
  trait : Option Bool
deriving DecidableEq, Repr

/-- `PROBS["gene"]`: unconditional gene-count prior (keys 0,1,2 in the source;
other indices never occur). -/
def PROBS_gene : Nat → ℚ
  | 0 => 96/100
  | 1 => 3/100
  | 2 => 1/100
  | _ => 0

/-- `PROBS["trait"]`: trait probability conditioned on gene count. -/
def PROBS_trait : Nat → Bool → ℚ
  | 2, true => 65/100
  | 2, false => 35/100
  | 1, true => 56/100
  | 1, false => 44/100
  | 0, true => 1/100
  | 0, false => 99/100
  | _, _ => 0

/-- `PROBS["mutation"]`. -/
def PROBS_mutation : ℚ := 1/100

/-- Membership of an optional name in a set of names: in Python,
`None in s` is `False` for a set of strings, and a missing (dangling) name is
simply not a member. -/
def optContains (l : List String) : Option String → Bool
  | none => false
  | some s => l.contains s

/-- `check_parents`: true when both parent fields are `None` (a founder). -/
def check_parents (p : Person) : Bool :=
  p.father.isNone && p.mother.isNone

/-- `zero_copies(people, parent, person, one_gene, two_genes)`: the given
parent reference is in neither `one_gene` nor `two_genes`. -/
def zero_copies (parent : Option String) (one_gene two_genes : List String) : Bool :=
  !(optContains one_gene parent) && !(optContains two_genes parent)

/-- `parents(people, person, one_gene, two_genes)`: the six-way numeric
classifier of the (father-bucket, mother-bucket) pair.  The Python function
falls through (returns `None`) when no branch matches, hence `Option Nat`. -/
def parentsCode (father mother : Option String) (one_gene two_genes : List String) :
    Option Nat :=
  if zero_copies father one_gene two_genes && zero_copies mother one_gene two_genes then
    some 0
  else if optContains one_gene father && optContains one_gene mother then
    some 1
  else if optContains two_genes father && optContains two_genes mother then
    some 2
  else if (optContains one_gene father && optContains two_genes mother) ||
      (optContains two_genes father && optContains one_gene mother) then
    some 3
  else if (zero_copies father one_gene two_genes && optContains one_gene mother) ||
      (zero_copies mother one_gene two_genes && optContains one_gene father) then
    some 4
  else if (zero_copies father one_gene two_genes && optContains two_genes mother) ||
      (zero_copies mother one_gene two_genes && optContains two_genes father) then
    some 5
  else
    none

/-- The gene-count bucket the code reads off for a person: branches test
`one_gene` first, then `two_genes`, else 0. -/
def bucket (person : String) (one_gene two_genes : List String) : Nat :=
  if one_gene.contains person then 1
  else if two_genes.contains person then 2
  else 0

/-- `gene_prob(person, one_gene, two_genes, have_trait)`: the factor for a
founder, transcribed branch for branch from the source. -/
def gene_prob (person : String) (one_gene two_genes have_trait : List String) : ℚ :=
  if have_trait.contains person then
    if one_gene.contains person then PROBS_gene 1 * PROBS_trait 1 true
    else if two_genes.contains person then PROBS_gene 2 * PROBS_trait 2 true
    else PROBS_gene 0 * PROBS_trait 0 true
  else
    if one_gene.contains person then PROBS_gene 1 * PROBS_trait 1 false
    else if two_genes.contains person then PROBS_gene 2 * PROBS_trait 2 false
    else PROBS_gene 0 * PROBS_trait 0 false

/-- The gene factor multiplied in for a non-founder, indexed by the classifier
code (first argument, 0–5) and the child's bucket (second argument, 1 for the
`one_gene` branch, 2 for the `two_genes` branch, anything else for the `else`
branch).  Each right-hand side transcribes the corresponding Python
expression literally, including the unparenthesised case-5 `one_gene`
expression `(1 - m * 1 - m) + m * m`. -/
def caseGeneFactor : Nat → Nat → ℚ
  | 0, 1 => (1 - PROBS_mutation) * PROBS_mutation + (1 - PROBS_mutation) * PROBS_mutation
  | 0, 2 => PROBS_mutation * PROBS_mutation
  | 0, _ => (1 - PROBS_mutation) * (1 - PROBS_mutation)
  | 1, 1 => (1/2) * (1/2) + (1/2) * (1/2)
  | 1, 2 => (1/2) * (1/2)
  | 1, _ => (1/2) * (1/2)
  | 2, 1 => (1 - PROBS_mutation) * PROBS_mutation + (1 - PROBS_mutation) * PROBS_mutation
  | 2, 2 => (1 - PROBS_mutation) * (1 - PROBS_mutation)
  | 2, _ => PROBS_mutation * PROBS_mutation
  | 3, 1 => (1/2) * PROBS_mutation + (1 - PROBS_mutation) * (1/2)
  | 3, 2 => (1/2) * (1 - PROBS_mutation)
  | 3, _ => (1/2) * PROBS_mutation
  | 4, 1 => (1/2) * PROBS_mutation + (1 - PROBS_mutation) * (1/2)
  | 4, 2 => (1/2) * PROBS_mutation
  | 4, _ => (1 - PROBS_mutation) * (1/2)
  | 5, 1 => (1 - PROBS_mutation * 1 - PROBS_mutation) + PROBS_mutation * PROBS_mutation
  | 5, 2 => (1 - PROBS_mutation) * PROBS_mutation
  | 5, _ => (1 - PROBS_mutation) * PROBS_mutation
  | _, _ => 1

/-- The factor one person contributes inside `joint_probability`'s loop.
Founders use `gene_prob`; non-founders dispatch on `parentsCode` (the six
`if parents(...) == k` blocks are mutually exclusive since `parents` is a
deterministic if/elif chain, and when it returns `None` no block runs, so the
person contributes factor 1). -/
def personFactor (p : Person) (one_gene two_genes have_trait : List String) : ℚ :=
  if check_parents p then
    gene_prob p.name one_gene two_genes have_trait
  else
    match parentsCode p.father p.mother one_gene two_genes with
    | some c =>
        caseGeneFactor c (bucket p.name one_gene two_genes) *
          PROBS_trait (bucket p.name one_gene two_genes) (have_trait.contains p.name)
    | none => 1

/-- `joint_probability(people, one_gene, two_genes, have_trait)`:
the running product `joint_p` over all people. -/
def joint_probability (people : List Person)
    (one_gene two_genes have_trait : List String) : ℚ :=
  people.foldl (fun acc p => acc * personFactor p one_gene two_genes have_trait) 1

/-! ## The enumeration driver of `main` -/

/-- `powerset(s)`: all subsets of `s` (as lists of names). -/
def powersetL : List String → List (List String)
  | [] => [[]]
  | x :: xs => powersetL xs ++ (powersetL xs).map (fun s => x :: s)

/-- The population: the keys of the `people` dict. -/
def names (people : List Person) : List String :=
  people.map Person.name

/-- Python set difference `names - one_gene`. -/
def setDiff (a b : List String) : List String :=
  a.filter (fun x => !b.contains x)

/-- `fails_evidence` inside `main`: some person has a known trait value
different from their membership in `have_trait`. -/
def fails_evidence (people : List Person) (have_trait : List String) : Bool :=
  people.any (fun p =>
    match p.trait with
    | some t => t != have_trait.contains p.name
    | none => false)

/-- All (`one_gene`, `two_genes`, `have_trait`) triples `main` evaluates
`joint_probability` on: every evidence-consistent `have_trait`, every
`one_gene` over the population, every `two_genes` over the remaining people. -/
def enumTriples (people : List Person) :
    List (List String × List String × List String) :=
  ((powersetL (names people)).filter (fun ht => !fails_evidence people ht)).flatMap
    (fun ht => (powersetL (names people)).flatMap
      (fun og => (powersetL (setDiff (names people) og)).map
        (fun tg => (og, tg, ht))))

/-! ## Python runtime values for `update` and `normalize`

`main` keeps `probabilities` as a dict from person to a nested dict
`{"gene": {2:…,1:…,0:…}, "trait": {True:…,False:…}}`.  `normalize` runs
`sum(probabilities.values())` over those nested dicts — a dynamic-typing
question — so we embed just enough of Python's value model to express which
operations raise.  Dict keys are rendered as strings. -/

inductive PyVal where
  | int (n : ℤ)
  | float (q : ℚ)
  | dict (entries : List (String × PyVal))

/-- Python `+` on the values that occur here: numbers add, anything involving
a dict is a `TypeError`. -/
def pyAdd : PyVal → PyVal → Except String PyVal
  | PyVal.int a, PyVal.int b => Except.ok (PyVal.int (a + b))
  | PyVal.int a, PyVal.float b => Except.ok (PyVal.float (a + b))
  | PyVal.float a, PyVal.int b => Except.ok (PyVal.float (a + b))
  | PyVal.float a, PyVal.float b => Except.ok (PyVal.float (a + b))
  | _, _ => Except.error ("TypeError: unsupported operand type(s) for +")

/-- Python `sum(iterable)`: fold `+` starting from the int `0`. -/
def pySum (l : List PyVal) : Except String PyVal :=
  l.foldlM pyAdd (PyVal.int 0)

/-- Python true division `a / b`: numeric division, `ZeroDivisionError` on a
zero divisor, `TypeError` when a dict is involved. -/
def pyDiv : PyVal → PyVal → Except String PyVal
  | PyVal.int a, PyVal.int b =>
      if b = 0 then Except.error ("ZeroDivisionError: division by zero")
      else Except.ok (PyVal.float ((a : ℚ) / (b : ℚ)))
  | PyVal.int a, PyVal.float b =>
      if b = 0 then Except.error ("ZeroDivisionError: division by zero")
      else Except.ok (PyVal.float ((a : ℚ) / b))
  | PyVal.float a, PyVal.int b =>
      if b = 0 then Except.error ("ZeroDivisionError: division by zero")
      else Except.ok (PyVal.float (a / (b : ℚ)))
  | PyVal.float a, PyVal.float b =>
      if b = 0 then Except.error ("ZeroDivisionError: division by zero")
      else Except.ok (PyVal.float (a / b))
  | _, _ => Except.error ("TypeError: unsupported operand type(s) for /")

/-- Python `*` on the values that occur here: numbers multiply, a dict times
anything is a `TypeError`. -/
def pyMul : PyVal → PyVal → Except String PyVal
  | PyVal.int a, PyVal.int b => Except.ok (PyVal.int (a * b))
  | PyVal.int a, PyVal.float b => Except.ok (PyVal.float (a * b))
  | PyVal.float a, PyVal.int b => Except.ok (PyVal.float (a * b))
  | PyVal.float a, PyVal.float b => Except.ok (PyVal.float (a * b))
  | _, _ => Except.error ("TypeError: unsupported operand type(s) for *")

/-- The `probabilities` accumulator `main` initialises: all buckets zero. -/
def initProbabilities (people : List Person) : List (String × PyVal) :=
  people.map (fun p =>
    (p.name, PyVal.dict
      [("gene", PyVal.dict
          [("2", PyVal.int 0), ("1", PyVal.int 0), ("0", PyVal.int 0)]),
       ("trait", PyVal.dict
          [("True", PyVal.int 0), ("False", PyVal.int 0)])]))

/-- `update(probabilities, one_gene, two_genes, have_trait, p)`: the source
body is a bare `raise NotImplementedError`. -/
def update (probabilities : List (String × PyVal))
    (one_gene two_genes have_trait : List String) (p : ℚ) :
    Except String (List (String × PyVal)) :=
  Except.error ("NotImplementedError")

/-- `normalize(probabilities)`: computes
`total_inverse = 1.0 / sum(probabilities.values())` and then rescales every
value of the whole mapping by that single scalar. -/
def normalize (probabilities : List (String × PyVal)) :
    Except String (List (String × PyVal)) := do
  let total ← pySum (probabilities.map Prod.snd)
  let total_inverse ← pyDiv (PyVal.float 1) total
  probabilities.mapM (fun kv => do
    let v ← pyMul kv.2 total_inverse
    pure (kv.1, v))

/-- The core of `main` after loading: fold every enumerated triple through
`update` (accumulating `joint_probability`), then `normalize`. -/
def mainRun (people : List Person) : Except String (List (String × PyVal)) := do
  let probs ← (enumTriples people).foldlM
    (fun acc t => update acc t.1 t.2.1 t.2.2 (joint_probability people t.1 t.2.1 t.2.2))
    (initProbabilities people)
  normalize probs

/-- Modelled from the spec: structural validity of a pedigree (source has no
such check).  Section 6 requires parent names, when present, to be keys of
the mapping, and mother/father to be both present or both absent. -/
def well_formed (people : List Person) : Bool :=
  people.all (fun p =>
    (p.father.isSome == p.mother.isSome) &&
    optInPop (names people) p.father &&
    optInPop (names people) p.mother)
where
  optInPop (pop : List String) : Option String → Bool
    | none => true
    | some s => pop.contains s

/-! ## Helper lemmas -/

theorem gene_prob_eq_bucket (person : String) (og tg ht : List String) :
    gene_prob person og tg ht =
      PROBS_gene (bucket person og tg) *
        PROBS_trait (bucket person og tg) (ht.contains person) := by
  by_cases h1 : person ∈ og <;> by_cases h2 : person ∈ tg <;>
    by_cases h3 : person ∈ ht <;>
      simp [gene_prob, bucket, h1, h2, h3]

theorem powersetL_subset {s l : List String} (h : s ∈ powersetL l) :
    ∀ x ∈ s, x ∈ l := by
  induction l generalizing s with
  | nil =>
      simp [powersetL] at h
      simp [h]
  | cons a as ih =>
      simp only [powersetL, List.mem_append, List.mem_map] at h
      rcases h with h | ⟨s', hs', rfl⟩
      · intro x hx
        exact List.mem_cons_of_mem a (ih h x hx)
      · intro x hx
        rcases List.mem_cons.mp hx with rfl | hx'
        · exact List.mem_cons_self x as
        · exact List.mem_cons_of_mem a (ih hs' x hx')

theorem PROBS_trait_bounds (b : Nat) (t : Bool) :
    0 ≤ PROBS_trait b t ∧ PROBS_trait b t ≤ 1 := by
  rw [PROBS_trait.eq_def]
  split <;> norm_num

theorem caseGeneFactor_bounds (c b : Nat) :
    0 ≤ caseGeneFactor c b ∧ caseGeneFactor c b ≤ 1 := by
  rw [caseGeneFactor.eq_def]
  split <;> norm_num [PROBS_mutation]

theorem gene_prob_bounds (person : String) (og tg ht : List String) :
    0 ≤ gene_prob person og tg ht ∧ gene_prob person og tg ht ≤ 1 := by
  unfold gene_prob
  split_ifs <;> norm_num [PROBS_gene, PROBS_trait]

theorem personFactor_bounds (p : Person) (og tg ht : List String) :
    0 ≤ personFactor p og tg ht ∧ personFactor p og tg ht ≤ 1 := by
  unfold personFactor
  by_cases h : check_parents p
  · simpa [h] using gene_prob_bounds p.name og tg ht
  · rcases hpc : parentsCode p.father p.mother og tg with _ | c
    · simp [h, hpc]
    · have h1 := caseGeneFactor_bounds c (bucket p.name og tg)
      have h2 := PROBS_trait_bounds (bucket p.name og tg) (ht.contains p.name)
      refine ⟨?_, ?_⟩ <;> simp only [h, hpc, if_neg, Bool.false_eq_true,
        not_false_eq_true]
      · exact mul_nonneg h1.1 h2.1
      · exact mul_le_one₀ h1.2 h2.1 h2.2

theorem foldl_factor_bounds (people : List Person) (og tg ht : List String) :
    ∀ acc : ℚ, 0 ≤ acc → acc ≤ 1 →
      0 ≤ people.foldl (fun a p => a * personFactor p og tg ht) acc ∧
      people.foldl (fun a p => a * personFactor p og tg ht) acc ≤ 1 := by
  induction people with
  | nil =>
      intro acc h0 h1
      simpa using ⟨h0, h1⟩
  | cons p ps ih =>
      intro acc h0 h1
      simp only [List.foldl_cons]
      exact ih _ (mul_nonneg h0 (personFactor_bounds p og tg ht).1)
        (mul_le_one₀ h1 (personFactor_bounds p og tg ht).1
          (personFactor_bounds p og tg ht).2)

/-! ## Claim theorems -/

/-- C7: for every founder (neither mother nor father recorded), the factor
contributed to the joint probability equals the unconditional gene-count
prior (0.96 for 0 copies, 0.03 for 1, 0.01 for 2, chosen by the person's
bucket) multiplied by the trait conditional for that gene count and the
person's membership in `have_trait`. -/
theorem C7_founder_factor (p : Person) (og tg ht : List String)
    (h : check_parents p = true) :
    personFactor p og tg ht =
      PROBS_gene (bucket p.name og tg) *
        PROBS_trait (bucket p.name og tg) (ht.contains p.name) ∧
    PROBS_gene 0 = 96/100 ∧ PROBS_gene 1 = 3/100 ∧ PROBS_gene 2 = 1/100 := by
  refine ⟨?_, by norm_num [PROBS_gene], by norm_num [PROBS_gene],
    by norm_num [PROBS_gene]⟩
  simp [personFactor, h, gene_prob_eq_bucket]

/-- Witness for C7 at the founder "Lily" with `one_gene = {Lily}`,
`have_trait = {Lily}`. -/
theorem C7_founder_factor_witness :
    personFactor ⟨"Lily", none, none, none⟩ ["Lily"] [] ["Lily"] =
      PROBS_gene (bucket "Lily" ["Lily"] []) *
        PROBS_trait (bucket "Lily" ["Lily"] []) (List.contains ["Lily"] "Lily") ∧
    PROBS_gene 0 = 96/100 ∧ PROBS_gene 1 = 3/100 ∧ PROBS_gene 2 = 1/100 :=
  C7_founder_factor ⟨"Lily", none, none, none⟩ ["Lily"] [] ["Lily"] (by decide)

/-- C5: for every non-founder both of whose parents carry zero assigned gene
copies, the dispatch selects classifier code 0; the gene factors are
m² = 0.0001 for the `two_genes` branch, (1−m)² = 0.9801 for the zero-copy
branch, 2·m·(1−m) = 0.0198 for the `one_gene` branch, and the three sum
to 1. -/
theorem C5_both_parents_zero (p : Person) (og tg ht : List String)
    (hnp : check_parents p = false)
    (hfa : zero_copies p.father og tg = true)
    (hmo : zero_copies p.mother og tg = true) :
    personFactor p og tg ht =
      caseGeneFactor 0 (bucket p.name og tg) *
        PROBS_trait (bucket p.name og tg) (ht.contains p.name) ∧
    caseGeneFactor 0 2 = 1/10000 ∧
    caseGeneFactor 0 0 = 9801/10000 ∧
    caseGeneFactor 0 1 = 198/10000 ∧
    caseGeneFactor 0 0 + caseGeneFactor 0 1 + caseGeneFactor 0 2 = 1 := by
  have hc : parentsCode p.father p.mother og tg = some 0 := by
    simp [parentsCode, hfa, hmo]
  refine ⟨?_, by norm_num [caseGeneFactor, PROBS_mutation],
    by norm_num [caseGeneFactor, PROBS_mutation],
    by norm_num [caseGeneFactor, PROBS_mutation],
    by norm_num [caseGeneFactor, PROBS_mutation]⟩
  simp [personFactor, hnp, hc]

/-- Witness for C5: child "C" of founders "F" and "M", with every gene set
empty (so both parents carry zero copies). -/
theorem C5_both_parents_zero_witness :
    personFactor ⟨"C", some "M", some "F", none⟩ [] [] [] =
      caseGeneFactor 0 (bucket "C" [] []) *
        PROBS_trait (bucket "C" [] []) (List.contains [] "C") ∧
    caseGeneFactor 0 2 = 1/10000 ∧
    caseGeneFactor 0 0 = 9801/10000 ∧
    caseGeneFactor 0 1 = 198/10000 ∧
    caseGeneFactor 0 0 + caseGeneFactor 0 1 + caseGeneFactor 0 2 = 1 :=
  C5_both_parents_zero ⟨"C", some "M", some "F", none⟩ [] [] []
    (by decide) (by decide) (by decide)

/-- C6: for every non-founder both of whose parents are assigned exactly one
gene copy, the dispatch selects classifier code 1; the gene factors are
exactly 1/4 for the `two_genes` branch, 1/4 for the zero-copy branch and
1/2 for the `one_gene` branch — plain 0.5 per parent, not a
mutation-weighted value. -/
theorem C6_both_parents_one (p : Person) (fa mo : String) (og tg ht : List String)
    (hfa : p.father = some fa) (hmo : p.mother = some mo)
    (hfa1 : og.contains fa = true) (hmo1 : og.contains mo = true) :
    personFactor p og tg ht =
      caseGeneFactor 1 (bucket p.name og tg) *
        PROBS_trait (bucket p.name og tg) (ht.contains p.name) ∧
    caseGeneFactor 1 2 = 1/4 ∧
    caseGeneFactor 1 0 = 1/4 ∧
    caseGeneFactor 1 1 = 1/2 := by
  have hcp : check_parents p = false := by
    simp [check_parents, hfa]
  have h1 : fa ∈ og := by simpa using hfa1
  have h2 : mo ∈ og := by simpa using hmo1
  have hc : parentsCode p.father p.mother og tg = some 1 := by
    simp [parentsCode, zero_copies, optContains, hfa, hmo, h1, h2]
  refine ⟨?_, by norm_num [caseGeneFactor], by norm_num [caseGeneFactor],
    by norm_num [caseGeneFactor]⟩
  simp [personFactor, hcp, hc]

/-- Witness for C6: child "C" of "F" and "M" with `one_gene = {F, M, C}`. -/
theorem C6_both_parents_one_witness :
    personFactor ⟨"C", some "M", some "F", none⟩ ["F", "M", "C"] [] [] =
      caseGeneFactor 1 (bucket "C" ["F", "M", "C"] []) *
        PROBS_trait (bucket "C" ["F", "M", "C"] []) (List.contains [] "C") ∧
    caseGeneFactor 1 2 = 1/4 ∧
    caseGeneFactor 1 0 = 1/4 ∧
    caseGeneFactor 1 1 = 1/2 :=
  C6_both_parents_one ⟨"C", some "M", some "F", none⟩ "F" "M" ["F", "M", "C"] [] []
    rfl rfl (by decide) (by decide)

/-- C3 (code bug): when one parent is in `two_genes` and the other carries
zero copies (classifier code 5) and the child is in `one_gene`, the code's
gene factor evaluates to 0.9801 — the expression `(1 - m * 1 - m) + m * m`
with its missing parentheses — whereas the correct closed form
(1−m)·(1−m) + m·m from the claim equals 0.9802. -/
theorem C3_case5_one_gene_bug :
    parentsCode (some "F") (some "M") ["C"] ["F"] = some 5 ∧
    caseGeneFactor 5 1 = 9801/10000 ∧
    (1 - PROBS_mutation) * (1 - PROBS_mutation) + PROBS_mutation * PROBS_mutation
      = 9802/10000 ∧
    caseGeneFactor 5 1 ≠
      (1 - PROBS_mutation) * (1 - PROBS_mutation) +
        PROBS_mutation * PROBS_mutation := by
  refine ⟨rfl, by norm_num [caseGeneFactor, PROBS_mutation],
    by norm_num [PROBS_mutation], by norm_num [caseGeneFactor, PROBS_mutation]⟩

/-- C1 (code bug): `update` raises `NotImplementedError` unconditionally
instead of adding the joint probability into the per-person buckets. -/
theorem C1_update_not_implemented :
    update (initProbabilities [⟨"Harry", none, none, none⟩]) [] [] [] 1 =
      Except.error ("NotImplementedError") := rfl

/-- C2 (code bug): `normalize` sums the per-person nested dicts themselves,
which raises a `TypeError` for any nonempty population (and a
`ZeroDivisionError` for an empty one); it never rescales each person's gene
and trait distributions. -/
theorem C2_normalize_raises :
    normalize (initProbabilities [⟨"Harry", none, none, none⟩]) =
      Except.error ("TypeError: unsupported operand type(s) for +") ∧
    normalize [] = Except.error ("ZeroDivisionError: division by zero") :=
  ⟨rfl, rfl⟩

/-- C10: for every person with both parents recorded and disjoint `one_gene`
and `two_genes`, the `parents` classifier returns one of the codes 0–5 (it
never falls through to `None`), covering all nine (father-bucket,
mother-bucket) combinations. -/
theorem C10_parents_total (fa mo : String) (og tg : List String)
    (hdisj : ∀ x ∈ og, x ∉ tg) :
    ∃ c, parentsCode (some fa) (some mo) og tg = some c ∧ c ≤ 5 := by
  by_cases h1 : fa ∈ og <;> by_cases h2 : fa ∈ tg <;>
    by_cases h3 : mo ∈ og <;> by_cases h4 : mo ∈ tg <;>
  first
    | exact absurd h2 (hdisj fa h1)
    | exact absurd h4 (hdisj mo h3)
    | (refine ⟨0, ?_, by norm_num⟩
       simp [parentsCode, zero_copies, optContains, h1, h2, h3, h4]
       done)
    | (refine ⟨1, ?_, by norm_num⟩
       simp [parentsCode, zero_copies, optContains, h1, h2, h3, h4]
       done)
    | (refine ⟨2, ?_, by norm_num⟩
       simp [parentsCode, zero_copies, optContains, h1, h2, h3, h4]
       done)
    | (refine ⟨3, ?_, by norm_num⟩
       simp [parentsCode, zero_copies, optContains, h1, h2, h3, h4]
       done)
    | (refine ⟨4, ?_, by norm_num⟩
       simp [parentsCode, zero_copies, optContains, h1, h2, h3, h4]
       done)
    | (refine ⟨5, ?_, by norm_num⟩
       simp [parentsCode, zero_copies, optContains, h1, h2, h3, h4]
       done)

/-- Witness for C10 at father "F" ∈ `one_gene`, mother "M" ∈ `two_genes`. -/
theorem C10_parents_total_witness :
    ∃ c, parentsCode (some "F") (some "M") ["F"] ["M"] = some c ∧ c ≤ 5 :=
  C10_parents_total "F" "M" ["F"] ["M"] (by decide)

/-- C8: for disjoint gene sets drawn from the population, `joint_probability`
is never negative and never exceeds 1. -/
theorem C8_joint_probability_unit_interval (people : List Person)
    (og tg ht : List String)
    (hog : ∀ x ∈ og, x ∈ names people)
    (htg : ∀ x ∈ tg, x ∈ names people)
    (hdisj : ∀ x ∈ og, x ∉ tg) :
    0 ≤ joint_probability people og tg ht ∧
      joint_probability people og tg ht ≤ 1 :=
  foldl_factor_bounds people og tg ht 1 (by norm_num) (le_refl 1)

/-- Witness for C8 on a two-person pedigree with `one_gene = {Harry}` and
`two_genes = {Lily}`. -/
theorem C8_joint_probability_unit_interval_witness :
    0 ≤ joint_probability
        [⟨"Harry", some "Lily", none, none⟩, ⟨"Lily", none, none, none⟩]
        ["Harry"] ["Lily"] ["Harry"] ∧
      joint_probability
        [⟨"Harry", some "Lily", none, none⟩, ⟨"Lily", none, none, none⟩]
        ["Harry"] ["Lily"] ["Harry"] ≤ 1 :=
  C8_joint_probability_unit_interval
    [⟨"Harry", some "Lily", none, none⟩, ⟨"Lily", none, none, none⟩]
    ["Harry"] ["Lily"] ["Harry"] (by decide) (by decide) (by decide)

/-- C4: every triple the enumeration driver evaluates has `two_genes`
disjoint from `one_gene` (it is drawn from the population minus `one_gene`),
and agrees with every person's known observed trait (conflicting `have_trait`
subsets are filtered out before evaluation). -/
theorem C4_enumeration_invariants (people : List Person)
    (og tg ht : List String)
    (h : (og, tg, ht) ∈ enumTriples people) :
    (∀ x ∈ tg, x ∉ og) ∧
    (∀ p ∈ people, ∀ t : Bool, p.trait = some t → ht.contains p.name = t) := by
  simp only [enumTriples, List.mem_flatMap, List.mem_filter, List.mem_map] at h
  obtain ⟨ht2, ⟨hmemht, hpass⟩, og2, hmemog, tg2, hmemtg, heq⟩ := h
  obtain ⟨rfl, rfl, rfl⟩ := Prod.mk.injEq .. ▸ heq
  constructor
  · intro x hx
    have hsub : x ∈ setDiff (names people) og2 := powersetL_subset hmemtg x hx
    simp only [setDiff, List.mem_filter] at hsub
    simpa using hsub.2
  · intro p hp t hpt
    have hfe : fails_evidence people ht = false := by simpa using hpass
    rw [fails_evidence, List.any_eq_false] at hfe
    have hone := hfe p hp
    rw [hpt] at hone
    have hteq : t = ht.contains p.name := by simpa using hone
    exact hteq.symm

/-- Witness for C4: the lone person "A" observed to have the trait; the
triple (∅, ∅, {A}) is enumerated. -/
theorem C4_enumeration_invariants_witness :
    (∀ x ∈ ([] : List String), x ∉ ([] : List String)) ∧
    (∀ p ∈ [(⟨"A", none, none, some true⟩ : Person)], ∀ t : Bool,
      p.trait = some t → List.contains ["A"] p.name = t) :=
  C4_enumeration_invariants [⟨"A", none, none, some true⟩] [] [] ["A"]
    (by decide)

/-- C9 counterexample: a malformed pedigree — the child "C" has a father
reference "X" that names nobody, and no mother — passes through untouched:
no structural-validation error occurs, enumeration begins and evaluates
triples, and the run only aborts at `update`'s `NotImplementedError`. -/
theorem C9_counterexample :
    well_formed [⟨"C", none, some "X", none⟩] = false ∧
    enumTriples [⟨"C", none, some "X", none⟩] ≠ [] ∧
    mainRun [⟨"C", none, some "X", none⟩] =
      Except.error ("NotImplementedError") := by
  refine ⟨by decide, by decide, rfl⟩

/-- C9 amended: the core performs no structural validation; any parent
reference that is absent or dangles outside the population is silently
classified as a parent with zero gene copies for every enumerable gene
assignment. -/
theorem C9_no_validation (people : List Person) (q : Option String)
    (og tg : List String)
    (hog : ∀ x ∈ og, x ∈ names people)
    (htg : ∀ x ∈ tg, x ∈ names people)
    (hq : optContains (names people) q = false) :
    zero_copies q og tg = true := by
  cases q with
  | none => rfl
  | some s =>
      have hs : s ∉ names people := by simpa [optContains] using hq
      have h1 : s ∉ og := fun hm => hs (hog s hm)
      have h2 : s ∉ tg := fun hm => hs (htg s hm)
      simp [zero_copies, optContains, h1, h2]

/-- Witness for C9's amended statement at the dangling father "X" of the
one-person pedigree {C}. -/
theorem C9_no_validation_witness :
    zero_copies (some "X") ["C"] [] = true :=
  C9_no_validation [⟨"C", none, some "X", none⟩] (some "X") ["C"] []
    (by decide) (by decide) (by decide)

end Heredity
